import Mathlib

/-!
Verification of the MessageCaller server core
(`src/messagecaller/server/back-end.js`, primary variant).

The development shallowly embeds the server's in-memory state
(`users`, `messages`, `activeConnections`, `signInRequests` — JavaScript
`Map`s modelled as insertion-ordered association lists), the numeric text
codec (`encodeToNumbers` / `decodeFromNumbers`), and the Socket.IO event
handlers as a pure step function on that state, and proves the specified
properties about them.
-/

namespace MessageCaller

/-! ## JavaScript `Map` as an insertion-ordered association list

`Map.get` returns the value at the key (first match); `Map.set` replaces
the value in place at an existing key (keeping insertion order) or appends
a new entry; `Map.delete` removes the entry at the key. -/

def mapGet {α : Type} (m : List (String × α)) (k : String) : Option α :=
  match m with
  | [] => none
  | (k', v) :: rest => if k' = k then some v else mapGet rest k

def mapSet {α : Type} (m : List (String × α)) (k : String) (v : α) : List (String × α) :=
  match m with
  | [] => [(k, v)]
  | (k', v') :: rest => if k' = k then (k, v) :: rest else (k', v') :: mapSet rest k v

def mapDelete {α : Type} (m : List (String × α)) (k : String) : List (String × α) :=
  match m with
  | [] => []
  | (k', v') :: rest => if k' = k then rest else (k', v') :: mapDelete rest k

/-- JavaScript truthiness of a nullable string (`null`/`undefined` and the
empty string are falsy). -/
def optTruthy (o : Option String) : Bool :=
  match o with
  | none => false
  | some s => !(s = "")

/-- `m.get(k)` followed by the JS truthiness test `if (!x)`: returns the
value only when it is a truthy string. -/
def truthyGet (m : List (String × String)) (k : String) : Option String :=
  match mapGet m k with
  | none => none
  | some s => if s = "" then none else some s

/-! ## The numeric text codec

`encodeToNumbers` (back-end.js lines 33–42): per character, space maps to
`"0"`, a letter (after `toUpperCase`) maps to its alphabet position 1–26,
any other character maps to its UTF-16 code in decimal; tokens are joined
with `"-"`.  `decodeFromNumbers` (lines 45–54) splits on `"-"`, applies
`parseInt`, and inverts the mapping via `String.fromCharCode`.

JS strings are sequences of UTF-16 code units; for characters in the Basic
Multilingual Plane a code unit is exactly a Lean `Char`, and the theorems
below only ever apply the codec to ASCII text.  `toUpperCase` is modelled
on the ASCII range; its behaviour outside ASCII is irrelevant to the
statements below. -/

/-- `char.toUpperCase()` restricted to ASCII. -/
def jsToUpperAscii (c : Char) : Char :=
  if 97 ≤ c.toNat ∧ c.toNat ≤ 122 then Char.ofNat (c.toNat - 32) else c

/-- `parseInt(s)` (decimal): optional sign then a longest digit prefix;
`none` models `NaN`. -/
def parseDigits (acc : Nat) : List Char → Nat
  | [] => acc
  | c :: rest =>
    if 48 ≤ c.toNat ∧ c.toNat ≤ 57 then parseDigits (acc * 10 + (c.toNat - 48)) rest
    else acc

def hasDigitHead : List Char → Bool
  | [] => false
  | c :: _ => 48 ≤ c.toNat ∧ c.toNat ≤ 57

def jsParseInt (s : List Char) : Option Int :=
  match s with
  | '-' :: rest => if hasDigitHead rest then some (-(parseDigits 0 rest : Int)) else none
  | '+' :: rest => if hasDigitHead rest then some (parseDigits 0 rest : Int) else none
  | l => if hasDigitHead l then some (parseDigits 0 l : Int) else none

/-- `String.fromCharCode(n)`: the argument is converted with ToUint16
(reduction mod 2^16). -/
def jsFromCharCode (i : Int) : Char :=
  Char.ofNat (i % 65536).toNat

/-- One token of `encodeToNumbers`, as a character list. -/
def encodeTok (c : Char) : List Char :=
  if c = ' ' then ['0']
  else if 65 ≤ (jsToUpperAscii c).toNat ∧ (jsToUpperAscii c).toNat ≤ 90 then
    (Nat.repr ((jsToUpperAscii c).toNat - 64)).data
  else (Nat.repr c.toNat).data

/-- `tokens.join('-')`. -/
def joinDash : List (List Char) → List Char
  | [] => []
  | [t] => t
  | t :: ts => t ++ '-' :: joinDash ts

/-- `encoded.split('-')` (note `"".split('-')` is `[""]`). -/
def splitDash : List Char → List (List Char)
  | [] => [[]]
  | c :: rest =>
    if c = '-' then [] :: splitDash rest
    else
      match splitDash rest with
      | t :: ts => (c :: t) :: ts
      | [] => [[c]]

/-- One decoded character of `decodeFromNumbers` (`NaN` from `parseInt`
falls through both guards and `String.fromCharCode(NaN)` is `'\0'`). -/
def decodeTok (tok : List Char) : Char :=
  match jsParseInt tok with
  | none => Char.ofNat 0
  | some n =>
    if n = 0 then ' '
    else if 1 ≤ n ∧ n ≤ 26 then jsFromCharCode (n + 64)
    else jsFromCharCode n

/-- back-end.js lines 33–42. -/
def encodeToNumbers (text : String) : String :=
  ⟨joinDash (text.data.map encodeTok)⟩

/-- back-end.js lines 45–54. -/
def decodeFromNumbers (encoded : String) : String :=
  ⟨(splitDash encoded.data).map decodeTok⟩

/-- The alphabet on which the codec round-trips: printable ASCII without
the lowercase letters (which `encodeToNumbers` case-folds). -/
def supportedChar (c : Char) : Prop :=
  32 ≤ c.toNat ∧ c.toNat ≤ 126 ∧ ¬(97 ≤ c.toNat ∧ c.toNat ≤ 122)

instance decidableSupportedChar (c : Char) : Decidable (supportedChar c) := by
  unfold supportedChar
  infer_instance

/-! ## Server data model (back-end.js lines 56–60)

`users`, `messages`, `activeConnections` and `signInRequests` are JS
`Map`s; their JS field names `from` / `to` on messages are rendered as
`fromUserId` / `toUserId` (`from` is a Lean keyword). -/

structure User where
  number : String
  nickname : String
  lastname : String
  photo : String
  age : Int
  email : String
  phone : String
  birthday : String
  socketId : Option String
deriving DecidableEq, Repr

structure Message where
  fromUserId : String
  toUserId : String
  text : String
  timestamp : Nat
deriving DecidableEq, Repr

structure SignInRequest where
  number : String
  requestingSocketId : String
deriving DecidableEq, Repr

/-- The `register` payload; destructured fields that arrive as
`undefined` behave like `""` (resp. `0`) under the `||`-defaulting the
handler applies, so they are modelled as plain values. -/
structure RegisterPayload where
  number : String
  nickname : String
  lastname : String
  photo : String
  age : Int
  email : String
  phone : String
  birthday : String
deriving DecidableEq, Repr

/-- The `updateProfile` payload: the handler tests each field against
`undefined` (`!== undefined`), which does distinguish absent from `""`,
hence `Option`. -/
structure ProfilePatch where
  nickname : Option String
  lastname : Option String
  photo : Option String
  age : Option Int
  email : Option String
  phone : Option String
  birthday : Option String
deriving DecidableEq, Repr

structure ServerState where
  users : List (String × User)
  messages : List (String × List Message)
  activeConnections : List (String × String)
  signInRequests : List (String × SignInRequest)
deriving DecidableEq, Repr

def initState : ServerState := ⟨[], [], [], []⟩

/-- Server→client events (plus the fire-and-forget email notification,
whose first component carries the address rather than a socket id). -/
inductive SEvent where
  | error (message : String)
  | registered (userId : String) (user : User)
  | awaitingAuthorization
  | signInRequest (requestId : String)
  | signInApproved (userId : String) (user : User)
  | signInDenied
  | profileUpdated (user : User)
  | userFound (number nickname lastname photo : String)
  | userNotFound (number : String)
  | messageSent (msg : Message)
  | messageReceived (msg : Message)
  | chatHistory (targetNumber : String) (msgs : List Message)
  | incomingCall (fromUserId nickname lastname photo offer : String)
  | callAnswered (fromUserId answer : String)
  | iceCandidate (fromUserId : Option String) (candidate : String)
  | callEnded (fromUserId : Option String)
  | emailNotify (addr text encodedText : String)
deriving DecidableEq, Repr

/-- `x || d` for strings (`undefined` and `""` are both falsy). -/
def jsOr (x d : String) : String := if x = "" then d else x

/-- `x || d` for numbers. -/
def jsOrInt (x d : Int) : Int := if x = 0 then d else x

def isAsciiDigit (c : Char) : Bool := 48 ≤ c.toNat && c.toNat ≤ 57

/-- `/^\d{4}$/.test(n)`. -/
def regexFourDigits (n : String) : Bool :=
  n.data.length == 4 && n.data.all isAsciiDigit

/-- Negation of the guard
`!number || number.length !== 4 || !/^\d{4}$/.test(number)`
(back-end.js line 100). -/
def validNumber (n : String) : Bool :=
  !(n == "") && n.data.length == 4 && regexFourDigits n

/-- `Array.from(users.values()).find(u => u.number === x)`. -/
def findUserByNumber (users : List (String × User)) (number : String) : Option User :=
  (users.map Prod.snd).find? (fun u => u.number == number)

/-- JS default (UTF-16 code-unit lexicographic) string order used by
`Array.prototype.sort`. -/
def charListLe : List Char → List Char → Bool
  | [], _ => true
  | _ :: _, [] => false
  | a :: as, b :: bs =>
    if a.toNat < b.toNat then true
    else if b.toNat < a.toNat then false
    else charListLe as bs

def strLe (a b : String) : Bool := charListLe a.data b.data

/-- `[a, b].sort().join('-')` (back-end.js lines 263 and 323). -/
def chatKey (a b : String) : String :=
  if strLe a b then ⟨a.data ++ '-' :: b.data⟩ else ⟨b.data ++ '-' :: a.data⟩

/-! ## Event handlers (back-end.js lines 96–404, primary variant) -/

/-- `register` (lines 96–157). `rid` is `Date.now().toString()`, threaded
in as a parameter of the event. -/
def handleRegister (s : ServerState) (sock : String) (p : RegisterPayload) (rid : String) :
    ServerState × List (String × SEvent) :=
  if validNumber p.number then
    match mapGet s.users p.number with
    | some existingUser =>
      if optTruthy existingUser.socketId then
        ({ s with signInRequests := mapSet s.signInRequests rid ⟨p.number, sock⟩ },
         [(existingUser.socketId.getD "", .signInRequest rid), (sock, .awaitingAuthorization)])
      else
        ({ s with
            users := mapSet s.users p.number { existingUser with socketId := some sock },
            activeConnections := mapSet s.activeConnections sock p.number },
         [(sock, .registered p.number { existingUser with socketId := some sock })])
    | none =>
      ({ s with
          users := mapSet s.users p.number
            ⟨p.number, jsOr p.nickname "User", jsOr p.lastname "", jsOr p.photo "",
              jsOrInt p.age 0, jsOr p.email "", jsOr p.phone "", jsOr p.birthday "", some sock⟩,
          activeConnections := mapSet s.activeConnections sock p.number },
       [(sock, .registered p.number
          ⟨p.number, jsOr p.nickname "User", jsOr p.lastname "", jsOr p.photo "",
            jsOrInt p.age 0, jsOr p.email "", jsOr p.phone "", jsOr p.birthday "", some sock⟩)])
  else (s, [(sock, .error "Number must be exactly 4 digits")])

/-- `approveSignIn` (lines 160–188).  The crash branch (a bound userId
with no user record) would throw in JS and is unreachable in reachable
states (`Inv.acUser` below); it is modelled as a no-op. -/
def handleApproveSignIn (s : ServerState) (sock rid : String) :
    ServerState × List (String × SEvent) :=
  match mapGet s.signInRequests rid with
  | none => (s, [])
  | some request =>
    match truthyGet s.activeConnections sock with
    | none => (s, [])
    | some userId =>
      match mapGet s.users userId with
      | none => (s, [])
      | some user =>
        ({ s with
            users := mapSet s.users userId
              { user with socketId := some request.requestingSocketId },
            activeConnections :=
              mapSet (mapDelete s.activeConnections sock) request.requestingSocketId userId,
            signInRequests := mapDelete s.signInRequests rid },
         [(request.requestingSocketId, .signInApproved userId
            { user with socketId := some request.requestingSocketId })])

/-- `denySignIn` (lines 191–202). -/
def handleDenySignIn (s : ServerState) (_sock rid : String) :
    ServerState × List (String × SEvent) :=
  match mapGet s.signInRequests rid with
  | none => (s, [])
  | some request =>
    ({ s with signInRequests := mapDelete s.signInRequests rid },
     [(request.requestingSocketId, .signInDenied)])

def applyPatch (u : User) (p : ProfilePatch) : User :=
  { u with
    nickname := p.nickname.getD u.nickname,
    lastname := p.lastname.getD u.lastname,
    photo := p.photo.getD u.photo,
    age := p.age.getD u.age,
    email := p.email.getD u.email,
    phone := p.phone.getD u.phone,
    birthday := p.birthday.getD u.birthday }

/-- `updateProfile` (lines 205–222); crash branch modelled as no-op. -/
def handleUpdateProfile (s : ServerState) (sock : String) (p : ProfilePatch) :
    ServerState × List (String × SEvent) :=
  match truthyGet s.activeConnections sock with
  | none => (s, [(sock, .error "Not registered")])
  | some userId =>
    match mapGet s.users userId with
    | none => (s, [])
    | some user =>
      ({ s with users := mapSet s.users userId (applyPatch user p) },
       [(sock, .profileUpdated (applyPatch user p))])

/-- `getUserByNumber` (lines 225–237). -/
def handleGetUserByNumber (s : ServerState) (sock number : String) :
    ServerState × List (String × SEvent) :=
  match findUserByNumber s.users number with
  | some u => (s, [(sock, .userFound u.number u.nickname u.lastname u.photo)])
  | none => (s, [(sock, .userNotFound number)])

/-- `sendMessage` (lines 240–313). `ts` is `Date.now()`.  The email
notification (lines 279–310, fire-and-forget, out-of-scope collaborator)
is recorded as an `emailNotify` output. -/
def handleSendMessage (s : ServerState) (sock toNumber text : String) (ts : Nat) :
    ServerState × List (String × SEvent) :=
  match truthyGet s.activeConnections sock with
  | none => (s, [(sock, .error "Not registered")])
  | some fromUserId =>
    match findUserByNumber s.users toNumber with
    | none => (s, [(sock, .error "Recipient not found")])
    | some toUser =>
      ({ s with
          messages := mapSet s.messages (chatKey fromUserId toNumber)
            (((mapGet s.messages (chatKey fromUserId toNumber)).getD []) ++
              [⟨fromUserId, toNumber, text, ts⟩]) },
       [(sock, .messageSent ⟨fromUserId, toNumber, text, ts⟩)] ++
       (if optTruthy toUser.socketId then
          [(toUser.socketId.getD "", .messageReceived ⟨fromUserId, toNumber, text, ts⟩)]
        else []) ++
       (if toUser.email ≠ "" ∧ toUser.email.trim ≠ "" then
          [(toUser.email, .emailNotify toUser.email text (encodeToNumbers text))]
        else []))

/-- `getChatHistory` (lines 316–330). -/
def handleGetChatHistory (s : ServerState) (sock targetNumber : String) :
    ServerState × List (String × SEvent) :=
  match truthyGet s.activeConnections sock with
  | none => (s, [(sock, .error "Not registered")])
  | some userId =>
    (s, [(sock, .chatHistory targetNumber
      ((mapGet s.messages (chatKey userId targetNumber)).getD []))])

/-- `initiateCall` (lines 333–352); crash branch modelled as no-op. -/
def handleInitiateCall (s : ServerState) (sock toNumber offer : String) :
    ServerState × List (String × SEvent) :=
  match truthyGet s.activeConnections sock with
  | none => (s, [])
  | some fromUserId =>
    match findUserByNumber s.users toNumber with
    | none => (s, [])
    | some toUser =>
      if optTruthy toUser.socketId then
        match mapGet s.users fromUserId with
        | none => (s, [])
        | some fromUser =>
          (s, [(toUser.socketId.getD "",
            .incomingCall fromUserId fromUser.nickname fromUser.lastname fromUser.photo offer)])
      else (s, [])

/-- `answerCall` (lines 355–368). -/
def handleAnswerCall (s : ServerState) (sock toNumber answer : String) :
    ServerState × List (String × SEvent) :=
  match truthyGet s.activeConnections sock with
  | none => (s, [])
  | some fromUserId =>
    match findUserByNumber s.users toNumber with
    | none => (s, [])
    | some toUser =>
      if optTruthy toUser.socketId then
        (s, [(toUser.socketId.getD "", .callAnswered fromUserId answer)])
      else (s, [])

/-- `iceCandidate` (lines 371–380; no sender-authentication check). -/
def handleIceCandidate (s : ServerState) (sock toNumber candidate : String) :
    ServerState × List (String × SEvent) :=
  match findUserByNumber s.users toNumber with
  | none => (s, [])
  | some toUser =>
    if optTruthy toUser.socketId then
      (s, [(toUser.socketId.getD "",
        .iceCandidate (mapGet s.activeConnections sock) candidate)])
    else (s, [])

/-- `endCall` (lines 383–391). -/
def handleEndCall (s : ServerState) (sock toNumber : String) :
    ServerState × List (String × SEvent) :=
  match findUserByNumber s.users toNumber with
  | none => (s, [])
  | some toUser =>
    if optTruthy toUser.socketId then
      (s, [(toUser.socketId.getD "", .callEnded (mapGet s.activeConnections sock))])
    else (s, [])

/-- `disconnect` (lines 394–404). -/
def handleDisconnect (s : ServerState) (sock : String) :
    ServerState × List (String × SEvent) :=
  match truthyGet s.activeConnections sock with
  | none => (s, [])
  | some userId =>
    match mapGet s.users userId with
    | none => ({ s with activeConnections := mapDelete s.activeConnections sock }, [])
    | some user =>
      ({ s with
          users := mapSet s.users userId { user with socketId := none },
          activeConnections := mapDelete s.activeConnections sock }, [])

/-- The inbound event surface.  Socket ids and the `Date.now()`-derived
values (`rid`, `ts`) are parameters of the event. -/
inductive Event where
  | register (sock : String) (p : RegisterPayload) (rid : String)
  | approveSignIn (sock requestId : String)
  | denySignIn (sock requestId : String)
  | updateProfile (sock : String) (p : ProfilePatch)
  | getUserByNumber (sock number : String)
  | sendMessage (sock toNumber text : String) (ts : Nat)
  | getChatHistory (sock targetNumber : String)
  | initiateCall (sock toNumber offer : String)
  | answerCall (sock toNumber answer : String)
  | iceCandidate (sock toNumber candidate : String)
  | endCall (sock toNumber : String)
  | disconnect (sock : String)
deriving DecidableEq, Repr

/-- One cooperative dispatch of an inbound event (§5 of the spec: each
handler runs to completion, so a step is atomic). -/
def step (s : ServerState) : Event → ServerState × List (String × SEvent)
  | .register sock p rid => handleRegister s sock p rid
  | .approveSignIn sock rid => handleApproveSignIn s sock rid
  | .denySignIn sock rid => handleDenySignIn s sock rid
  | .updateProfile sock p => handleUpdateProfile s sock p
  | .getUserByNumber sock n => handleGetUserByNumber s sock n
  | .sendMessage sock toNumber text ts => handleSendMessage s sock toNumber text ts
  | .getChatHistory sock t => handleGetChatHistory s sock t
  | .initiateCall sock toNumber offer => handleInitiateCall s sock toNumber offer
  | .answerCall sock toNumber answer => handleAnswerCall s sock toNumber answer
  | .iceCandidate sock toNumber cand => handleIceCandidate s sock toNumber cand
  | .endCall sock toNumber => handleEndCall s sock toNumber
  | .disconnect sock => handleDisconnect s sock

/-- States reachable from the empty initial state by dispatching events. -/
inductive Reachable : ServerState → Prop where
  | init : Reachable initState
  | next (s : ServerState) (e : Event) : Reachable s → Reachable (step s e).1

/-! ## Reachability invariant -/

/-- "Exactly 4 ASCII digits" — what the register guard enforces for every
identifier that enters the system. -/
def ValidNum (n : String) : Prop :=
  n.data.length = 4 ∧ ∀ c ∈ n.data, isAsciiDigit c = true

/-- Structural invariant of every reachable server state. -/
structure Inv (s : ServerState) : Prop where
  userNum : ∀ p ∈ s.users, (p : String × User).2.number = p.1 ∧ ValidNum p.1
  acVal : ∀ p ∈ s.activeConnections, ValidNum (p : String × String).2
  acUser : ∀ p ∈ s.activeConnections, ∃ u, mapGet s.users (p : String × String).2 = some u
  msgOk : ∀ q ∈ s.messages, ∀ m ∈ (q : String × List Message).2,
    ValidNum m.fromUserId ∧ ValidNum m.toUserId ∧ q.1 = chatKey m.fromUserId m.toUserId
  acUniq : (s.activeConnections.map Prod.fst).Nodup

/-! ## C2: session-uniqueness invariant -/

/-- No transport connection is recorded as the live session (`socketId`)
of two distinct users. -/
def NoSharedLiveSocket (s : ServerState) : Prop :=
  ∀ p ∈ s.users, ∀ q ∈ s.users, (p : String × User).1 ≠ (q : String × User).1 →
    (p : String × User).2.socketId = none ∨ p.2.socketId ≠ (q : String × User).2.socketId

instance decidableNoSharedLiveSocket (s : ServerState) : Decidable (NoSharedLiveSocket s) := by
  unfold NoSharedLiveSocket
  infer_instance

/-- The two operations that write session bindings without clearing the
previous one. -/
def bindingMutator : Event → Bool
  | .register _ _ _ => true
  | .approveSignIn _ _ => true
  | _ => false

/-- Concrete fixtures used by the closed witnesses and counterexamples. -/
def wPayload (n : String) : RegisterPayload := ⟨n, "Alice", "", "", 0, "", "", ""⟩

def wE1 : Event := .register "A" (wPayload "1111") "r0"

def wE2 : Event := .register "B" (wPayload "2222") "r0"

def wE3 : Event := .register "C" (wPayload "1111") "r1"

def wS1 : ServerState := (step initState wE1).1

def wS2 : ServerState := (step wS1 wE2).1

def wS2c : ServerState := (step wS2 wE3).1

def wS2d : ServerState := (step wS2 (.disconnect "A")).1

def wS3 : ServerState := (step wS2 (.sendMessage "A" "2222" "hi" 5)).1

def wDouble : ServerState := (step wS1 (.register "A" (wPayload "2222") "r0")).1

/-! ## Codec lemmas -/

theorem splitDash_dashFree (l : List Char) (h : ∀ c ∈ l, c ≠ '-') :
    splitDash l = [l] := by
  induction l with
  | nil => rfl
  | cons c rest ih =>
    have hc : c ≠ '-' := h c (by simp)
    have hr := ih (fun x hx => h x (by simp [hx]))
    simp [splitDash, hc, hr]

theorem splitDash_append (t r : List Char) (h : ∀ c ∈ t, c ≠ '-') :
    splitDash (t ++ '-' :: r) = t :: splitDash r := by
  induction t with
  | nil => simp [splitDash]
  | cons c t' ih =>
    have hc : c ≠ '-' := h c (by simp)
    have ht := ih (fun x hx => h x (by simp [hx]))
    simp [splitDash, hc, ht]

theorem splitDash_joinDash (ts : List (List Char)) (hne : ts ≠ [])
    (h : ∀ t ∈ ts, ∀ c ∈ t, c ≠ '-') : splitDash (joinDash ts) = ts := by
  induction ts with
  | nil => cases hne rfl
  | cons t ts' ih =>
    cases ts' with
    | nil => simpa [joinDash] using splitDash_dashFree t (h t (by simp))
    | cons u us =>
      have hj : joinDash (t :: u :: us) = t ++ '-' :: joinDash (u :: us) := rfl
      rw [hj, splitDash_append t _ (h t (by simp)),
        ih (by simp) (fun v hv => h v (by simp [hv]))]

/-- For every token value the program can emit (0–126), `Nat.repr`
produces a nonempty dash-free digit string that `parseInt` maps back. -/
theorem repr_tok_facts : ∀ n : Fin 127,
    jsParseInt (Nat.repr n.val).data = some (n.val : Int) ∧
    ((Nat.repr n.val).data ≠ [] ∧ ∀ c ∈ (Nat.repr n.val).data, c ≠ '-') := by
  decide

theorem repr_tok_parse (k : Nat) (hk : k < 127) :
    jsParseInt (Nat.repr k).data = some (k : Int) :=
  (repr_tok_facts ⟨k, hk⟩).1

theorem decodeTok_some (t : List Char) (v : Int) (h : jsParseInt t = some v) :
    decodeTok t = if v = 0 then ' '
      else if 1 ≤ v ∧ v ≤ 26 then jsFromCharCode (v + 64) else jsFromCharCode v := by
  unfold decodeTok
  rw [h]

theorem encodeTok_wf (c : Char) (h : c.toNat ≤ 126) :
    encodeTok c ≠ [] ∧ ∀ ch ∈ encodeTok c, ch ≠ '-' := by
  unfold encodeTok
  split
  · refine ⟨by simp, ?_⟩
    intro ch hch
    simp only [List.mem_singleton] at hch
    subst hch
    decide
  · split
    · exact (repr_tok_facts ⟨(jsToUpperAscii c).toNat - 64, by omega⟩).2
    · exact (repr_tok_facts ⟨c.toNat, by omega⟩).2

theorem decodeTok_encodeTok (c : Char) (h : supportedChar c) :
    decodeTok (encodeTok c) = c := by
  obtain ⟨h32, h126, hnl⟩ := h
  by_cases hsp : c = ' '
  · subst hsp; decide
  · have hne32 : c.toNat ≠ 32 := by
      intro hx
      exact hsp (by rw [← Char.ofNat_toNat c, hx])
    have hup : jsToUpperAscii c = c := by
      unfold jsToUpperAscii
      rw [if_neg hnl]
    by_cases hAZ : 65 ≤ c.toNat ∧ c.toNat ≤ 90
    · have henc : encodeTok c = (Nat.repr (c.toNat - 64)).data := by
        simp [encodeTok, hsp, hup, hAZ]
      have h1 : ¬((c.toNat - 64 : Nat) : Int) = 0 := by omega
      have h2 : 1 ≤ ((c.toNat - 64 : Nat) : Int) ∧ ((c.toNat - 64 : Nat) : Int) ≤ 26 := by omega
      rw [henc, decodeTok_some _ _ (repr_tok_parse (c.toNat - 64) (by omega)),
        if_neg h1, if_pos h2]
      unfold jsFromCharCode
      have hmod : (((c.toNat - 64 : Nat) : Int) + 64) % 65536 = (c.toNat : Int) := by omega
      rw [hmod]
      simp [Char.ofNat_toNat]
    · have henc : encodeTok c = (Nat.repr c.toNat).data := by
        simp [encodeTok, hsp, hup, hAZ]
      have h1 : ¬((c.toNat : Int) = 0) := by omega
      have h2 : ¬(1 ≤ (c.toNat : Int) ∧ (c.toNat : Int) ≤ 26) := by omega
      rw [henc, decodeTok_some _ _ (repr_tok_parse c.toNat (by omega)),
        if_neg h1, if_neg h2]
      unfold jsFromCharCode
      have hmod : (c.toNat : Int) % 65536 = (c.toNat : Int) := by omega
      rw [hmod]
      simp [Char.ofNat_toNat]

/-- C4 (amended): for every nonempty text over printable ASCII without
lowercase letters, `decodeFromNumbers (encodeToNumbers x) = x`. -/
theorem codec_roundtrip_supported (x : String) (hne : x.data ≠ [])
    (hsupp : ∀ c ∈ x.data, supportedChar c) :
    decodeFromNumbers (encodeToNumbers x) = x := by
  show String.mk ((splitDash (joinDash (x.data.map encodeTok))).map decodeTok) = x
  have hmapne : x.data.map encodeTok ≠ [] := by
    intro hx
    exact hne (List.map_eq_nil_iff.mp hx)
  have hdf : ∀ t ∈ x.data.map encodeTok, ∀ ch ∈ t, ch ≠ '-' := by
    intro t ht
    obtain ⟨c, hc, rfl⟩ := List.mem_map.mp ht
    exact (encodeTok_wf c (hsupp c hc).2.1).2
  rw [splitDash_joinDash _ hmapne hdf, List.map_map]
  have hid : ∀ c ∈ x.data, (decodeTok ∘ encodeTok) c = id c := by
    intro c hc
    exact decodeTok_encodeTok c (hsupp c hc)
  rw [List.map_congr_left hid, List.map_id]

/-- C4 counterexample: the codec case-folds, so it is not one-to-one and
the round trip fails on the lowercase letter `a`. -/
theorem codec_not_injective_lowercase :
    encodeToNumbers "a" = encodeToNumbers "A" ∧
    decodeFromNumbers (encodeToNumbers "a") = "A" ∧ "A" ≠ "a" := by
  refine ⟨rfl, rfl, by decide⟩

/-- C4 witness: the amended round trip evaluated on a concrete text. -/
theorem codec_roundtrip_supported_witness :
    decodeFromNumbers (encodeToNumbers "HELLO WORLD 123!") = "HELLO WORLD 123!" :=
  codec_roundtrip_supported "HELLO WORLD 123!" (by decide) (by decide)

/-! ## Association-list (JS `Map`) lemmas -/

theorem mapGet_mapSet_self {α : Type} (m : List (String × α)) (k : String) (v : α) :
    mapGet (mapSet m k v) k = some v := by
  induction m with
  | nil => simp [mapSet, mapGet]
  | cons p rest ih =>
    obtain ⟨k', v'⟩ := p
    by_cases h : k' = k
    · subst h
      simp [mapSet, mapGet]
    · simp [mapSet, mapGet, h, ih]

theorem mapGet_mapSet_ne {α : Type} (m : List (String × α)) (k k' : String) (v : α)
    (h : k ≠ k') : mapGet (mapSet m k v) k' = mapGet m k' := by
  induction m with
  | nil => simp [mapSet, mapGet, h]
  | cons p rest ih =>
    obtain ⟨k0, v0⟩ := p
    by_cases h0 : k0 = k
    · subst h0
      simp [mapSet, mapGet, h]
    · simp [mapSet, mapGet, h0, ih]

theorem mapGet_mem {α : Type} (m : List (String × α)) (k : String) (v : α)
    (h : mapGet m k = some v) : (k, v) ∈ m := by
  induction m with
  | nil => simp [mapGet] at h
  | cons p rest ih =>
    obtain ⟨k0, v0⟩ := p
    by_cases h0 : k0 = k
    · subst h0
      simp [mapGet] at h
      subst h
      exact List.mem_cons_self _ _
    · simp [mapGet, h0] at h
      exact List.mem_cons_of_mem _ (ih h)

theorem mem_mapSet {α : Type} (m : List (String × α)) (k : String) (v : α)
    (p : String × α) (h : p ∈ mapSet m k v) : p = (k, v) ∨ p ∈ m := by
  induction m with
  | nil =>
    simp [mapSet] at h
    left
    exact h
  | cons q rest ih =>
    obtain ⟨k0, v0⟩ := q
    by_cases h0 : k0 = k
    · subst h0
      simp [mapSet] at h
      rcases h with h | h
      · left
        exact h
      · right
        simp [h]
    · simp [mapSet, h0] at h
      rcases h with h | h
      · right
        simp [h]
      · rcases ih h with h' | h'
        · left
          exact h'
        · right
          simp [h']

theorem mem_mapDelete {α : Type} (m : List (String × α)) (k : String)
    (p : String × α) (h : p ∈ mapDelete m k) : p ∈ m := by
  induction m with
  | nil => simp [mapDelete] at h
  | cons q rest ih =>
    obtain ⟨k0, v0⟩ := q
    by_cases h0 : k0 = k
    · subst h0
      simp [mapDelete] at h
      simp [h]
    · simp [mapDelete, h0] at h
      rcases h with h | h
      · simp [h]
      · exact List.mem_cons_of_mem _ (ih h)

theorem mapSet_length_fresh {α : Type} (m : List (String × α)) (k : String) (v : α)
    (h : mapGet m k = none) : (mapSet m k v).length = m.length + 1 := by
  induction m with
  | nil => rfl
  | cons q rest ih =>
    obtain ⟨k0, v0⟩ := q
    by_cases h0 : k0 = k
    · subst h0
      simp [mapGet] at h
    · simp [mapGet, h0] at h
      simp [mapSet, h0, ih h]

/-! ## `chatKey` lemmas -/

theorem charListLe_antisymm (a : List Char) : ∀ b, charListLe a b = true →
    charListLe b a = true → a = b := by
  induction a with
  | nil =>
    intro b h1 h2
    cases b with
    | nil => rfl
    | cons c cs => simp [charListLe] at h2
  | cons x xs ih =>
    intro b h1 h2
    cases b with
    | nil => simp [charListLe] at h1
    | cons y ys =>
      by_cases hxy : x.toNat < y.toNat
      · have hno : ¬ y.toNat < x.toNat := by omega
        simp [charListLe, hxy, hno] at h2
      · by_cases hyx : y.toNat < x.toNat
        · simp [charListLe, hxy, hyx] at h1
        · have hnat : x.toNat = y.toNat := by omega
          have hc : x = y := by rw [← Char.ofNat_toNat x, ← Char.ofNat_toNat y, hnat]
          subst hc
          simp [charListLe, hxy] at h1 h2
          rw [ih ys h1 h2]

theorem charListLe_total (a : List Char) : ∀ b, charListLe a b = true ∨ charListLe b a = true := by
  induction a with
  | nil =>
    intro b
    left
    rfl
  | cons x xs ih =>
    intro b
    cases b with
    | nil =>
      right
      rfl
    | cons y ys =>
      by_cases hxy : x.toNat < y.toNat
      · left
        simp [charListLe, hxy]
      · by_cases hyx : y.toNat < x.toNat
        · right
          simp [charListLe, hyx]
        · cases ih ys with
          | inl h =>
            left
            simp [charListLe, hxy, hyx, h]
          | inr h =>
            right
            simp [charListLe, hxy, hyx, h]

theorem strLe_antisymm (a b : String) (h1 : strLe a b = true) (h2 : strLe b a = true) :
    a = b := by
  have hd := charListLe_antisymm a.data b.data h1 h2
  cases a
  cases b
  exact congrArg String.mk hd

theorem chatKey_comm (a b : String) : chatKey a b = chatKey b a := by
  unfold chatKey
  by_cases h1 : strLe a b = true
  · by_cases h2 : strLe b a = true
    · have hab := strLe_antisymm a b h1 h2
      subst hab
      simp
    · simp [h1, h2]
  · by_cases h2 : strLe b a = true
    · simp [h1, h2]
    · cases charListLe_total a.data b.data with
      | inl h => exact absurd h h1
      | inr h => exact absurd h h2

/-! ## Register-handler claims -/

/-- C6: a `register` whose number is not exactly 4 ASCII digits fails
synchronously with the invalid-identifier error, creates no User, and
changes no state. -/
theorem register_invalid_number (s : ServerState) (sock : String) (p : RegisterPayload)
    (rid : String)
    (h : ¬(p.number.data.length = 4 ∧ ∀ c ∈ p.number.data, isAsciiDigit c = true)) :
    step s (.register sock p rid) = (s, [(sock, .error "Number must be exactly 4 digits")]) := by
  have hv : validNumber p.number = false := by
    unfold validNumber regexFourDigits
    by_cases h4 : p.number.data.length = 4
    · have hall : p.number.data.all isAsciiDigit = false := by
        rw [Bool.eq_false_iff]
        intro hx
        exact h ⟨h4, fun c hc => List.all_eq_true.mp hx c hc⟩
      rw [hall, Bool.and_false, Bool.and_false]
    · have hlen : (p.number.data.length == 4) = false := by
        rw [beq_eq_false_iff_ne]
        exact h4
      rw [hlen, Bool.and_false, Bool.false_and]
  show handleRegister s sock p rid = _
  simp [handleRegister, hv]

/-- C3: a `register` for an existing User with no live session binds the
caller's connection directly, returns the stored profile unmodified (the
payload's profile fields are not applied), creates no SignInRequest, and
touches no other state. -/
theorem register_resignin (s : ServerState) (sock : String) (p : RegisterPayload)
    (rid : String) (eu : User)
    (hvalid : validNumber p.number = true)
    (hex : mapGet s.users p.number = some eu)
    (hoff : optTruthy eu.socketId = false) :
    step s (.register sock p rid) =
      ({ s with
          users := mapSet s.users p.number { eu with socketId := some sock },
          activeConnections := mapSet s.activeConnections sock p.number },
       [(sock, .registered p.number { eu with socketId := some sock })]) := by
  show handleRegister s sock p rid = _
  simp [handleRegister, hvalid, hex, hoff]

/-- C5: a `register` for a User with a live session on connection `c1`
creates exactly one pending SignInRequest, notifies `c1`, tells the
caller it is awaiting authorization, and leaves the user table, session
bindings and message logs unchanged. -/
theorem register_conflict (s : ServerState) (sock : String) (p : RegisterPayload)
    (rid : String) (eu : User) (c1 : String)
    (hvalid : validNumber p.number = true)
    (hex : mapGet s.users p.number = some eu)
    (hc1 : eu.socketId = some c1)
    (hc1ne : c1 ≠ "")
    (hfresh : mapGet s.signInRequests rid = none) :
    step s (.register sock p rid) =
      ({ s with signInRequests := mapSet s.signInRequests rid ⟨p.number, sock⟩ },
       [(c1, .signInRequest rid), (sock, .awaitingAuthorization)]) ∧
    (mapSet s.signInRequests rid ⟨p.number, sock⟩).length = s.signInRequests.length + 1 := by
  constructor
  · show handleRegister s sock p rid = _
    simp [handleRegister, hvalid, hex, hc1, optTruthy, hc1ne]
  · exact mapSet_length_fresh _ _ _ hfresh

/-! ## Message-relay claims -/

theorem getChatHistory_out (s : ServerState) (sock t uid : String)
    (h : truthyGet s.activeConnections sock = some uid) :
    step s (.getChatHistory sock t) =
      (s, [(sock, .chatHistory t ((mapGet s.messages (chatKey uid t)).getD []))]) := by
  show handleGetChatHistory s sock t = _
  simp [handleGetChatHistory, h]

/-- C7: `sendMessage` from an unbound connection fails with the
not-registered error, and to an unknown recipient with the
recipient-not-found error; in both cases no message is appended and no
state changes. -/
theorem sendMessage_error_paths (s : ServerState) (sock toNumber text : String) (ts : Nat) :
    (truthyGet s.activeConnections sock = none →
      step s (.sendMessage sock toNumber text ts) =
        (s, [(sock, .error "Not registered")])) ∧
    (∀ f, truthyGet s.activeConnections sock = some f →
      findUserByNumber s.users toNumber = none →
      step s (.sendMessage sock toNumber text ts) =
        (s, [(sock, .error "Recipient not found")])) := by
  constructor
  · intro hnone
    show handleSendMessage s sock toNumber text ts = _
    simp [handleSendMessage, hnone]
  · intro f hf hno
    show handleSendMessage s sock toNumber text ts = _
    simp [handleSendMessage, hf, hno]

/-- C8: a successful `sendMessage` appends the message to the
conversation log at `chatKey`, changes nothing else, acknowledges the
sender with `messageSent`, pushes `messageReceived` to the recipient's
session exactly when one is live (nothing is delivered or queued when the
recipient is offline), and the appended message is retrievable via
`getChatHistory`. -/
theorem sendMessage_success (s : ServerState) (sock toNumber text : String) (ts : Nat)
    (f : String) (tu : User)
    (hf : truthyGet s.activeConnections sock = some f)
    (htu : findUserByNumber s.users toNumber = some tu) :
    (step s (.sendMessage sock toNumber text ts)).1.messages =
      mapSet s.messages (chatKey f toNumber)
        (((mapGet s.messages (chatKey f toNumber)).getD []) ++ [⟨f, toNumber, text, ts⟩]) ∧
    (step s (.sendMessage sock toNumber text ts)).1.users = s.users ∧
    (step s (.sendMessage sock toNumber text ts)).1.activeConnections = s.activeConnections ∧
    (step s (.sendMessage sock toNumber text ts)).1.signInRequests = s.signInRequests ∧
    (sock, .messageSent ⟨f, toNumber, text, ts⟩) ∈ (step s (.sendMessage sock toNumber text ts)).2 ∧
    (∀ c, tu.socketId = some c → c ≠ "" →
      (c, .messageReceived ⟨f, toNumber, text, ts⟩) ∈ (step s (.sendMessage sock toNumber text ts)).2) ∧
    (optTruthy tu.socketId = false →
      ∀ t m, (t, SEvent.messageReceived m) ∉ (step s (.sendMessage sock toNumber text ts)).2) ∧
    (step (step s (.sendMessage sock toNumber text ts)).1 (.getChatHistory sock toNumber)).2 =
      [(sock, .chatHistory toNumber
        (((mapGet s.messages (chatKey f toNumber)).getD []) ++ [⟨f, toNumber, text, ts⟩]))] := by
  have hstep : step s (.sendMessage sock toNumber text ts) =
      ({ s with
          messages := mapSet s.messages (chatKey f toNumber)
            (((mapGet s.messages (chatKey f toNumber)).getD []) ++ [⟨f, toNumber, text, ts⟩]) },
       [(sock, .messageSent ⟨f, toNumber, text, ts⟩)] ++
       (if optTruthy tu.socketId then
          [(tu.socketId.getD "", .messageReceived ⟨f, toNumber, text, ts⟩)]
        else []) ++
       (if tu.email ≠ "" ∧ tu.email.trim ≠ "" then
          [(tu.email, .emailNotify tu.email text (encodeToNumbers text))]
        else [])) := by
    show handleSendMessage s sock toNumber text ts = _
    simp [handleSendMessage, hf, htu]
  rw [hstep]
  refine ⟨rfl, rfl, rfl, rfl, by simp, ?_, ?_, ?_⟩
  · intro c hc hcne
    have htr : optTruthy (some c) = true := by
      simp [optTruthy, hcne]
    simp [hc, htr]
  · intro hoff t m
    rw [hoff]
    intro hmem
    simp only [Bool.false_eq_true, if_false, List.append_nil, List.nil_append,
      List.mem_append, List.mem_singleton] at hmem
    rcases hmem with hmem | hmem
    · simp at hmem
    · by_cases he : tu.email ≠ "" ∧ tu.email.trim ≠ ""
      · rw [if_pos he] at hmem
        simp at hmem
      · rw [if_neg he] at hmem
        simp at hmem
  · have hf' : truthyGet
        ({ s with
            messages := mapSet s.messages (chatKey f toNumber)
              (((mapGet s.messages (chatKey f toNumber)).getD []) ++ [⟨f, toNumber, text, ts⟩])
          } : ServerState).activeConnections sock = some f := hf
    rw [getChatHistory_out _ sock toNumber f hf']
    simp [mapGet_mapSet_self]

/-- C9: `chatKey` is symmetric, and after a first message from `f` to
`tn` both directions of `getChatHistory` return the same single-element
log containing exactly that message. -/
theorem chatKey_symmetric_histories :
    (∀ a b : String, chatKey a b = chatKey b a) ∧
    (∀ (s : ServerState) (sockA sockB f tn text : String) (ts : Nat) (tu : User),
      truthyGet s.activeConnections sockA = some f →
      findUserByNumber s.users tn = some tu →
      mapGet s.messages (chatKey f tn) = none →
      truthyGet s.activeConnections sockB = some tn →
      (step (step s (.sendMessage sockA tn text ts)).1 (.getChatHistory sockA tn)).2 =
        [(sockA, .chatHistory tn [⟨f, tn, text, ts⟩])] ∧
      (step (step s (.sendMessage sockA tn text ts)).1 (.getChatHistory sockB f)).2 =
        [(sockB, .chatHistory f [⟨f, tn, text, ts⟩])]) := by
  refine ⟨chatKey_comm, ?_⟩
  intro s sockA sockB f tn text ts tu hA htu hnone hB
  have hstep : (step s (.sendMessage sockA tn text ts)).1 =
      { s with
        messages := mapSet s.messages (chatKey f tn) [⟨f, tn, text, ts⟩] } := by
    show (handleSendMessage s sockA tn text ts).1 = _
    simp [handleSendMessage, hA, htu, hnone]
  rw [hstep]
  have hA' : truthyGet
      ({ s with messages := mapSet s.messages (chatKey f tn) [⟨f, tn, text, ts⟩]
        } : ServerState).activeConnections sockA = some f := hA
  have hB' : truthyGet
      ({ s with messages := mapSet s.messages (chatKey f tn) [⟨f, tn, text, ts⟩]
        } : ServerState).activeConnections sockB = some tn := hB
  constructor
  · rw [getChatHistory_out _ sockA tn f hA']
    simp [mapGet_mapSet_self]
  · rw [getChatHistory_out _ sockB f tn hB']
    simp [chatKey_comm tn f, mapGet_mapSet_self]

theorem validNumber_valid (n : String) (h : validNumber n = true) : ValidNum n := by
  unfold validNumber regexFourDigits at h
  rw [Bool.and_eq_true, Bool.and_eq_true, Bool.and_eq_true] at h
  refine ⟨by simpa using h.1.2, fun c hc => ?_⟩
  have hall := h.2.2
  rw [List.all_eq_true] at hall
  exact hall c hc

theorem truthyGet_some (m : List (String × String)) (k v : String)
    (h : truthyGet m k = some v) : mapGet m k = some v ∧ v ≠ "" := by
  unfold truthyGet at h
  rcases hm : mapGet m k with _ | s
  · rw [hm] at h
    cases h
  · rw [hm] at h
    have h' : (if s = "" then none else some s : Option String) = some v := h
    by_cases hs : s = ""
    · rw [if_pos hs] at h'
      cases h'
    · rw [if_neg hs] at h'
      have hv : s = v := Option.some.inj h'
      subst hv
      exact ⟨rfl, hs⟩

theorem mapGet_mapSet_some {α : Type} (m : List (String × α)) (k k' : String) (v : α)
    (h : ∃ u, mapGet m k' = some u) : ∃ u, mapGet (mapSet m k v) k' = some u := by
  by_cases hk : k = k'
  · subst hk
    exact ⟨v, mapGet_mapSet_self m k v⟩
  · rw [mapGet_mapSet_ne m k k' v hk]
    exact h

theorem keys_mapSet_sub {α : Type} (m : List (String × α)) (k : String) (v : α) (x : String)
    (h : x ∈ (mapSet m k v).map Prod.fst) : x = k ∨ x ∈ m.map Prod.fst := by
  rw [List.mem_map] at h
  obtain ⟨p, hp, hx⟩ := h
  rcases mem_mapSet m k v p hp with h' | h'
  · left
    rw [← hx, h']
  · right
    rw [List.mem_map]
    exact ⟨p, h', hx⟩

theorem nodup_keys_mapSet {α : Type} (m : List (String × α)) (k : String) (v : α)
    (h : (m.map Prod.fst).Nodup) : ((mapSet m k v).map Prod.fst).Nodup := by
  induction m with
  | nil => simp [mapSet]
  | cons q rest ih =>
    obtain ⟨k0, v0⟩ := q
    simp only [List.map_cons, List.nodup_cons] at h
    by_cases h0 : k0 = k
    · subst h0
      have hmk : mapSet ((k0, v0) :: rest) k0 v = (k0, v) :: rest := by
        simp [mapSet]
      rw [hmk]
      simp only [List.map_cons, List.nodup_cons]
      exact ⟨h.1, h.2⟩
    · have hmk : mapSet ((k0, v0) :: rest) k v = (k0, v0) :: mapSet rest k v := by
        simp [mapSet, h0]
      rw [hmk]
      simp only [List.map_cons, List.nodup_cons]
      refine ⟨?_, ih h.2⟩
      intro hx
      rcases keys_mapSet_sub rest k v k0 hx with h' | h'
      · exact h0 h'
      · exact h.1 h'

theorem keys_mapDelete_sub {α : Type} (m : List (String × α)) (k : String) (x : String)
    (h : x ∈ (mapDelete m k).map Prod.fst) : x ∈ m.map Prod.fst := by
  rw [List.mem_map] at h
  obtain ⟨p, hp, hx⟩ := h
  rw [List.mem_map]
  exact ⟨p, mem_mapDelete m k p hp, hx⟩

theorem nodup_keys_mapDelete {α : Type} (m : List (String × α)) (k : String)
    (h : (m.map Prod.fst).Nodup) : ((mapDelete m k).map Prod.fst).Nodup := by
  induction m with
  | nil => simp [mapDelete]
  | cons q rest ih =>
    obtain ⟨k0, v0⟩ := q
    simp only [List.map_cons, List.nodup_cons] at h
    by_cases h0 : k0 = k
    · simp only [mapDelete, if_pos h0]
      exact h.2
    · simp only [mapDelete, if_neg h0, List.map_cons, List.nodup_cons]
      refine ⟨fun hx => h.1 (keys_mapDelete_sub rest k k0 hx), ih h.2⟩

theorem findUserByNumber_mem (users : List (String × User)) (n : String) (u : User)
    (h : findUserByNumber users n = some u) : (∃ k, (k, u) ∈ users) ∧ u.number = n := by
  unfold findUserByNumber at h
  have hmem := List.mem_of_find?_eq_some h
  have hpred := List.find?_some h
  rw [List.mem_map] at hmem
  obtain ⟨p, hp, hu⟩ := hmem
  refine ⟨⟨p.1, ?_⟩, by simpa using hpred⟩
  rw [← hu]
  exact hp

theorem inv_init : Inv initState := by
  constructor <;> simp [initState]

theorem inv_bindUser (s : ServerState) (sock n : String) (u : User)
    (hs : Inv s) (hnum : u.number = n) (hvn : ValidNum n) :
    Inv { s with users := mapSet s.users n u,
                 activeConnections := mapSet s.activeConnections sock n } := by
  refine ⟨?_, ?_, ?_, hs.msgOk, nodup_keys_mapSet _ _ _ hs.acUniq⟩
  · intro q hq
    rcases mem_mapSet s.users n u q hq with h' | h'
    · rw [h']
      exact ⟨hnum, hvn⟩
    · exact hs.userNum q h'
  · intro q hq
    rcases mem_mapSet s.activeConnections sock n q hq with h' | h'
    · rw [h']
      exact hvn
    · exact hs.acVal q h'
  · intro q hq
    rcases mem_mapSet s.activeConnections sock n q hq with h' | h'
    · rw [h']
      exact ⟨_, mapGet_mapSet_self _ _ _⟩
    · exact mapGet_mapSet_some _ _ _ _ (hs.acUser q h')

theorem inv_register (s : ServerState) (sock : String) (p : RegisterPayload) (rid : String)
    (hs : Inv s) : Inv (handleRegister s sock p rid).1 := by
  by_cases hv : validNumber p.number = true
  · have hvn : ValidNum p.number := validNumber_valid p.number hv
    rcases hex : mapGet s.users p.number with _ | eu
    · have hb : (handleRegister s sock p rid).1 =
          { s with
            users := mapSet s.users p.number
              ⟨p.number, jsOr p.nickname "User", jsOr p.lastname "", jsOr p.photo "",
                jsOrInt p.age 0, jsOr p.email "", jsOr p.phone "", jsOr p.birthday "",
                some sock⟩,
            activeConnections := mapSet s.activeConnections sock p.number } := by
        simp [handleRegister, hv, hex]
      rw [hb]
      exact inv_bindUser s sock p.number _ hs rfl hvn
    · by_cases htr : optTruthy eu.socketId = true
      · have hb : (handleRegister s sock p rid).1 =
            { s with signInRequests := mapSet s.signInRequests rid ⟨p.number, sock⟩ } := by
          simp [handleRegister, hv, hex, htr]
        rw [hb]
        exact ⟨hs.userNum, hs.acVal, hs.acUser, hs.msgOk, hs.acUniq⟩
      · have htr' : optTruthy eu.socketId = false := by
          rw [Bool.eq_false_iff]
          exact htr
        have heu := hs.userNum (p.number, eu) (mapGet_mem _ _ _ hex)
        have hb : (handleRegister s sock p rid).1 =
            { s with
              users := mapSet s.users p.number { eu with socketId := some sock },
              activeConnections := mapSet s.activeConnections sock p.number } := by
          simp [handleRegister, hv, hex, htr']
        rw [hb]
        exact inv_bindUser s sock p.number _ hs heu.1 hvn
  · have hv' : validNumber p.number = false := by
      rw [Bool.eq_false_iff]
      exact hv
    have hb : (handleRegister s sock p rid).1 = s := by
      simp [handleRegister, hv']
    rw [hb]
    exact hs

theorem inv_approve (s : ServerState) (sock rid : String) (hs : Inv s) :
    Inv (handleApproveSignIn s sock rid).1 := by
  rcases hreq : mapGet s.signInRequests rid with _ | request
  · have hb : (handleApproveSignIn s sock rid).1 = s := by
      simp [handleApproveSignIn, hreq]
    rw [hb]
    exact hs
  · rcases hu : truthyGet s.activeConnections sock with _ | userId
    · have hb : (handleApproveSignIn s sock rid).1 = s := by
        simp [handleApproveSignIn, hreq, hu]
      rw [hb]
      exact hs
    · rcases huser : mapGet s.users userId with _ | user
      · have hb : (handleApproveSignIn s sock rid).1 = s := by
          simp [handleApproveSignIn, hreq, hu, huser]
        rw [hb]
        exact hs
      · have hmem : (sock, userId) ∈ s.activeConnections :=
          mapGet_mem _ _ _ (truthyGet_some _ _ _ hu).1
        have hval : ValidNum userId := hs.acVal (sock, userId) hmem
        have hnum := hs.userNum (userId, user) (mapGet_mem _ _ _ huser)
        have hb : (handleApproveSignIn s sock rid).1 =
            { s with
              users := mapSet s.users userId
                { user with socketId := some request.requestingSocketId },
              activeConnections :=
                mapSet (mapDelete s.activeConnections sock)
                  request.requestingSocketId userId,
              signInRequests := mapDelete s.signInRequests rid } := by
          simp [handleApproveSignIn, hreq, hu, huser]
        rw [hb]
        refine ⟨?_, ?_, ?_, hs.msgOk,
          nodup_keys_mapSet _ _ _ (nodup_keys_mapDelete _ _ hs.acUniq)⟩
        · intro q hq
          rcases mem_mapSet _ _ _ q hq with h' | h'
          · rw [h']
            exact ⟨hnum.1, hval⟩
          · exact hs.userNum q h'
        · intro q hq
          rcases mem_mapSet _ _ _ q hq with h' | h'
          · rw [h']
            exact hval
          · exact hs.acVal q (mem_mapDelete _ _ q h')
        · intro q hq
          rcases mem_mapSet _ _ _ q hq with h' | h'
          · rw [h']
            exact ⟨_, mapGet_mapSet_self _ _ _⟩
          · exact mapGet_mapSet_some _ _ _ _ (hs.acUser q (mem_mapDelete _ _ q h'))

theorem inv_deny (s : ServerState) (sock rid : String) (hs : Inv s) :
    Inv (handleDenySignIn s sock rid).1 := by
  rcases hreq : mapGet s.signInRequests rid with _ | request
  · have hb : (handleDenySignIn s sock rid).1 = s := by
      simp [handleDenySignIn, hreq]
    rw [hb]
    exact hs
  · have hb : (handleDenySignIn s sock rid).1 =
        { s with signInRequests := mapDelete s.signInRequests rid } := by
      simp [handleDenySignIn, hreq]
    rw [hb]
    exact ⟨hs.userNum, hs.acVal, hs.acUser, hs.msgOk, hs.acUniq⟩

theorem inv_updateProfile (s : ServerState) (sock : String) (p : ProfilePatch) (hs : Inv s) :
    Inv (handleUpdateProfile s sock p).1 := by
  rcases hu : truthyGet s.activeConnections sock with _ | userId
  · have hb : (handleUpdateProfile s sock p).1 = s := by
      simp [handleUpdateProfile, hu]
    rw [hb]
    exact hs
  · rcases huser : mapGet s.users userId with _ | user
    · have hb : (handleUpdateProfile s sock p).1 = s := by
        simp [handleUpdateProfile, hu, huser]
      rw [hb]
      exact hs
    · have hnum := hs.userNum (userId, user) (mapGet_mem _ _ _ huser)
      have hb : (handleUpdateProfile s sock p).1 =
          { s with users := mapSet s.users userId (applyPatch user p) } := by
        simp [handleUpdateProfile, hu, huser]
      rw [hb]
      refine ⟨?_, hs.acVal, ?_, hs.msgOk, hs.acUniq⟩
      · intro q hq
        rcases mem_mapSet _ _ _ q hq with h' | h'
        · rw [h']
          refine ⟨?_, hnum.2⟩
          show (applyPatch user p).number = userId
          have hpn : (applyPatch user p).number = user.number := rfl
          rw [hpn, hnum.1]
        · exact hs.userNum q h'
      · intro q hq
        exact mapGet_mapSet_some _ _ _ _ (hs.acUser q hq)

theorem inv_sendMessage (s : ServerState) (sock toNumber text : String) (ts : Nat)
    (hs : Inv s) : Inv (handleSendMessage s sock toNumber text ts).1 := by
  rcases hu : truthyGet s.activeConnections sock with _ | fromUserId
  · have hb : (handleSendMessage s sock toNumber text ts).1 = s := by
      simp [handleSendMessage, hu]
    rw [hb]
    exact hs
  · rcases htu : findUserByNumber s.users toNumber with _ | toUser
    · have hb : (handleSendMessage s sock toNumber text ts).1 = s := by
        simp [handleSendMessage, hu, htu]
      rw [hb]
      exact hs
    · have hfmem : (sock, fromUserId) ∈ s.activeConnections :=
        mapGet_mem _ _ _ (truthyGet_some _ _ _ hu).1
      have hfval : ValidNum fromUserId := hs.acVal (sock, fromUserId) hfmem
      have htoval : ValidNum toNumber := by
        obtain ⟨⟨k, hk⟩, hn⟩ := findUserByNumber_mem s.users toNumber toUser htu
        have hx := hs.userNum (k, toUser) hk
        rw [← hn, hx.1]
        exact hx.2
      have hb : (handleSendMessage s sock toNumber text ts).1 =
          { s with
            messages := mapSet s.messages (chatKey fromUserId toNumber)
              (((mapGet s.messages (chatKey fromUserId toNumber)).getD []) ++
                [⟨fromUserId, toNumber, text, ts⟩]) } := by
        simp [handleSendMessage, hu, htu]
      rw [hb]
      refine ⟨hs.userNum, hs.acVal, hs.acUser, ?_, hs.acUniq⟩
      intro q hq m hm
      rcases mem_mapSet _ _ _ q hq with h' | h'
      · subst h'
        rcases List.mem_append.mp hm with hm' | hm'
        · rcases hold : mapGet s.messages (chatKey fromUserId toNumber) with _ | log
          · rw [hold] at hm'
            simp at hm'
          · rw [hold] at hm'
            simp only [Option.getD_some] at hm'
            exact hs.msgOk _ (mapGet_mem _ _ _ hold) m hm'
        · have hmeq : m = ⟨fromUserId, toNumber, text, ts⟩ := by
            simpa using hm'
          rw [hmeq]
          exact ⟨hfval, htoval, rfl⟩
      · exact hs.msgOk q h' m hm

theorem inv_noStateChange (s s' : ServerState) (h : s' = s) (hs : Inv s) : Inv s' := by
  rw [h]
  exact hs

theorem getUserByNumber_state (s : ServerState) (sock n : String) :
    (handleGetUserByNumber s sock n).1 = s := by
  unfold handleGetUserByNumber
  split <;> rfl

theorem getChatHistory_state (s : ServerState) (sock t : String) :
    (handleGetChatHistory s sock t).1 = s := by
  unfold handleGetChatHistory
  split <;> rfl

theorem initiateCall_state (s : ServerState) (sock t o : String) :
    (handleInitiateCall s sock t o).1 = s := by
  unfold handleInitiateCall
  split
  · rfl
  · split
    · rfl
    · split
      · split <;> rfl
      · rfl

theorem answerCall_state (s : ServerState) (sock t a : String) :
    (handleAnswerCall s sock t a).1 = s := by
  unfold handleAnswerCall
  split
  · rfl
  · split
    · rfl
    · split <;> rfl

theorem iceCandidate_state (s : ServerState) (sock t c : String) :
    (handleIceCandidate s sock t c).1 = s := by
  unfold handleIceCandidate
  split
  · rfl
  · split <;> rfl

theorem endCall_state (s : ServerState) (sock t : String) :
    (handleEndCall s sock t).1 = s := by
  unfold handleEndCall
  split
  · rfl
  · split <;> rfl

theorem inv_disconnect (s : ServerState) (sock : String) (hs : Inv s) :
    Inv (handleDisconnect s sock).1 := by
  rcases hu : truthyGet s.activeConnections sock with _ | userId
  · have hb : (handleDisconnect s sock).1 = s := by
      simp [handleDisconnect, hu]
    rw [hb]
    exact hs
  · rcases huser : mapGet s.users userId with _ | user
    · have hb : (handleDisconnect s sock).1 =
          { s with activeConnections := mapDelete s.activeConnections sock } := by
        simp [handleDisconnect, hu, huser]
      rw [hb]
      refine ⟨hs.userNum, ?_, ?_, hs.msgOk, nodup_keys_mapDelete _ _ hs.acUniq⟩
      · intro q hq
        exact hs.acVal q (mem_mapDelete _ _ q hq)
      · intro q hq
        exact hs.acUser q (mem_mapDelete _ _ q hq)
    · have hnum := hs.userNum (userId, user) (mapGet_mem _ _ _ huser)
      have hb : (handleDisconnect s sock).1 =
          { s with
            users := mapSet s.users userId { user with socketId := none },
            activeConnections := mapDelete s.activeConnections sock } := by
        simp [handleDisconnect, hu, huser]
      rw [hb]
      refine ⟨?_, ?_, ?_, hs.msgOk, nodup_keys_mapDelete _ _ hs.acUniq⟩
      · intro q hq
        rcases mem_mapSet _ _ _ q hq with h' | h'
        · rw [h']
          exact ⟨hnum.1, hnum.2⟩
        · exact hs.userNum q h'
      · intro q hq
        exact hs.acVal q (mem_mapDelete _ _ q hq)
      · intro q hq
        exact mapGet_mapSet_some _ _ _ _ (hs.acUser q (mem_mapDelete _ _ q hq))

theorem inv_step (s : ServerState) (e : Event) (hs : Inv s) : Inv (step s e).1 := by
  cases e with
  | register sock p rid => exact inv_register s sock p rid hs
  | approveSignIn sock rid => exact inv_approve s sock rid hs
  | denySignIn sock rid => exact inv_deny s sock rid hs
  | updateProfile sock p => exact inv_updateProfile s sock p hs
  | getUserByNumber sock n => exact inv_noStateChange _ _ (getUserByNumber_state s sock n) hs
  | sendMessage sock toNumber text ts => exact inv_sendMessage s sock toNumber text ts hs
  | getChatHistory sock t => exact inv_noStateChange _ _ (getChatHistory_state s sock t) hs
  | initiateCall sock t o => exact inv_noStateChange _ _ (initiateCall_state s sock t o) hs
  | answerCall sock t a => exact inv_noStateChange _ _ (answerCall_state s sock t a) hs
  | iceCandidate sock t c => exact inv_noStateChange _ _ (iceCandidate_state s sock t c) hs
  | endCall sock t => exact inv_noStateChange _ _ (endCall_state s sock t) hs
  | disconnect sock => exact inv_disconnect s sock hs

theorem reachable_inv (s : ServerState) (h : Reachable s) : Inv s := by
  induction h with
  | init => exact inv_init
  | next s' e _ ih => exact inv_step s' e ih

/-! ## C10: history access confined to own conversations -/

theorem strData_inj (x y : String) (h : x.data = y.data) : x = y := by
  cases x
  cases y
  exact congrArg String.mk h

theorem append_cons_inj (u p v q : List Char) (hlen : u.length = p.length)
    (h : u ++ '-' :: v = p ++ '-' :: q) : u = p ∧ v = q := by
  have hinj := List.append_inj h hlen
  refine ⟨hinj.1, ?_⟩
  have := hinj.2
  injection this

theorem chatKey_data (a b : String) : (chatKey a b).data =
    if strLe a b then a.data ++ '-' :: b.data else b.data ++ '-' :: a.data := by
  unfold chatKey
  split <;> rfl

/-- If a conversation key built from a 4-character identifier `r` and an
arbitrary client-supplied target equals the key of a log whose
participants `a`, `b` are 4-character identifiers, then `r` is one of the
participants. -/
theorem chatKey_participant (r t a b : String)
    (hr : r.data.length = 4) (ha : a.data.length = 4) (hb : b.data.length = 4)
    (h : chatKey r t = chatKey a b) : r = a ∨ r = b := by
  have hd : (chatKey r t).data = (chatKey a b).data := by rw [h]
  rw [chatKey_data, chatKey_data] at hd
  by_cases h1 : strLe r t = true
  · rw [if_pos h1] at hd
    by_cases h2 : strLe a b = true
    · rw [if_pos h2] at hd
      left
      exact strData_inj r a (append_cons_inj _ _ _ _ (by omega) hd).1
    · rw [if_neg h2] at hd
      right
      exact strData_inj r b (append_cons_inj _ _ _ _ (by omega) hd).1
  · rw [if_neg h1] at hd
    by_cases h2 : strLe a b = true
    · rw [if_pos h2] at hd
      have hlen : t.data.length = a.data.length := by
        have := congrArg List.length hd
        simp only [List.length_append, List.length_cons] at this
        omega
      right
      have := (append_cons_inj _ _ _ _ hlen hd).2
      exact strData_inj r b this
    · rw [if_neg h2] at hd
      have hlen : t.data.length = b.data.length := by
        have := congrArg List.length hd
        simp only [List.length_append, List.length_cons] at this
        omega
      left
      have := (append_cons_inj _ _ _ _ hlen hd).2
      exact strData_inj r a this

/-- C10: in every reachable state, a `getChatHistory` reply to a
connection authenticated as `r` contains only messages whose sender or
recipient is `r` — no connection can read a conversation between two
other users. -/
theorem getChatHistory_own_conversation (s : ServerState) (sock t r : String)
    (hs : Reachable s)
    (hr : mapGet s.activeConnections sock = some r)
    (tgt : String) (hist : List Message)
    (hout : (step s (.getChatHistory sock t)).2 = [(sock, .chatHistory tgt hist)]) :
    ∀ m ∈ hist, m.fromUserId = r ∨ m.toUserId = r := by
  intro m hm
  have hinv := reachable_inv s hs
  by_cases hre : r = ""
  · have hng : truthyGet s.activeConnections sock = none := by
      unfold truthyGet
      rw [hr]
      show (if r = "" then none else some r : Option String) = none
      rw [if_pos hre]
    have hb : (step s (.getChatHistory sock t)).2 = [(sock, .error "Not registered")] := by
      show (handleGetChatHistory s sock t).2 = _
      simp [handleGetChatHistory, hng]
    rw [hb] at hout
    simp at hout
  · have htr : truthyGet s.activeConnections sock = some r := by
      unfold truthyGet
      rw [hr]
      show (if r = "" then none else some r : Option String) = some r
      rw [if_neg hre]
    have hb := getChatHistory_out s sock t r htr
    rw [hb] at hout
    simp only [List.cons.injEq, Prod.mk.injEq, SEvent.chatHistory.injEq, and_true,
      true_and] at hout
    have hhist : hist = (mapGet s.messages (chatKey r t)).getD [] := hout.2.symm
    rcases hlog : mapGet s.messages (chatKey r t) with _ | log
    · rw [hlog] at hhist
      simp only [Option.getD_none] at hhist
      rw [hhist] at hm
      simp at hm
    · rw [hlog] at hhist
      simp only [Option.getD_some] at hhist
      rw [hhist] at hm
      have hrval : ValidNum r := hinv.acVal (sock, r) (mapGet_mem _ _ _ hr)
      have hmok := hinv.msgOk (chatKey r t, log) (mapGet_mem _ _ _ hlog) m hm
      rcases chatKey_participant r t m.fromUserId m.toUserId hrval.1 hmok.1.1 hmok.2.1.1
          hmok.2.2 with h' | h'
      · left
        exact h'.symm
      · right
        exact h'.symm

/-! ## C1: approveSignIn behaviour -/

/-- When every stored record's `number` field equals its key (true in all
reachable states), the linear scan by `number` agrees with the map
lookup. -/
theorem findUserByNumber_eq_mapGet (users : List (String × User))
    (hnum : ∀ p ∈ users, (p : String × User).2.number = p.1) (n : String) :
    findUserByNumber users n = mapGet users n := by
  induction users with
  | nil => rfl
  | cons q rest ih =>
    obtain ⟨k, u⟩ := q
    have hk : u.number = k := hnum (k, u) (List.mem_cons_self _ _)
    have ih' := ih (fun p hp => hnum p (List.mem_cons_of_mem _ hp))
    unfold findUserByNumber at ih' ⊢
    simp only [List.map_cons, List.find?_cons]
    rw [hk]
    by_cases hn : k = n
    · subst hn
      simp [mapGet]
    · have hkb : (k == n) = false := by
        simp [hn]
      simp [mapGet, hkb, hn, ih']

theorem wS2_reachable : Reachable wS2 :=
  Reachable.next wS1 wE2 (Reachable.next initState wE1 Reachable.init)

theorem wS2c_reachable : Reachable wS2c :=
  Reachable.next wS2 wE3 wS2_reachable

theorem wS3_reachable : Reachable wS3 :=
  Reachable.next wS2 (.sendMessage "A" "2222" "hi" 5) wS2_reachable

/-- C1 counterexample: in reachable state `wS2c`, session B is live for
user 2222 and is **not** user 1111's live session, yet request r1 targets
1111; `approveSignIn` from B is not a no-op — it reassigns **2222**'s
live session to the requesting socket C and deletes the request. -/
theorem approveSignIn_foreign_session_not_noop :
    Reachable wS2c ∧
    mapGet wS2c.activeConnections "B" = some "2222" ∧
    (mapGet wS2c.signInRequests "r1").map SignInRequest.number = some "1111" ∧
    (mapGet wS2c.users "1111").map User.socketId = some (some "A") ∧
    (mapGet wS2c.users "2222").map User.socketId = some (some "B") ∧
    (mapGet (step wS2c (.approveSignIn "B" "r1")).1.users "2222").map User.socketId =
      some (some "C") ∧
    mapGet (step wS2c (.approveSignIn "B" "r1")).1.signInRequests "r1" = none :=
  ⟨wS2c_reachable, rfl, rfl, rfl, rfl, rfl, rfl⟩

/-- C1 (amended): `approveSignIn` is a silent no-op when the requestId is
unknown or the caller is not bound to any identity; otherwise — with no
check that the caller is bound to the request's target — it reassigns the
live session of the **caller's own** user `u` (which is the target user
exactly when the caller is the target's live session) to the requesting
socket, removes the caller's binding, notifies the requesting socket with
`u`'s full profile, and deletes the request, after which a `sendMessage`
addressed to `u` is delivered to the requesting socket and not to the
caller's old socket. -/
theorem approveSignIn_behavior (s : ServerState) (hs : Reachable s) (sock rid : String) :
    (mapGet s.signInRequests rid = none →
      step s (.approveSignIn sock rid) = (s, [])) ∧
    (truthyGet s.activeConnections sock = none →
      step s (.approveSignIn sock rid) = (s, [])) ∧
    (∀ req u, mapGet s.signInRequests rid = some req →
      truthyGet s.activeConnections sock = some u →
      ∃ user, mapGet s.users u = some user ∧
        step s (.approveSignIn sock rid) =
          ({ s with
              users := mapSet s.users u { user with socketId := some req.requestingSocketId },
              activeConnections :=
                mapSet (mapDelete s.activeConnections sock) req.requestingSocketId u,
              signInRequests := mapDelete s.signInRequests rid },
           [(req.requestingSocketId, .signInApproved u
              { user with socketId := some req.requestingSocketId })]) ∧
        (req.requestingSocketId ≠ "" →
          ∀ sock2 f text ts,
            truthyGet (step s (.approveSignIn sock rid)).1.activeConnections sock2 = some f →
            ((req.requestingSocketId, SEvent.messageReceived ⟨f, u, text, ts⟩) ∈
              (step (step s (.approveSignIn sock rid)).1 (.sendMessage sock2 u text ts)).2 ∧
             (sock ≠ sock2 → sock ≠ req.requestingSocketId →
               ∀ m, (sock, SEvent.messageReceived m) ∉
                 (step (step s (.approveSignIn sock rid)).1 (.sendMessage sock2 u text ts)).2)))) := by
  refine ⟨?_, ?_, ?_⟩
  · intro h
    show handleApproveSignIn s sock rid = _
    simp [handleApproveSignIn, h]
  · intro h
    show handleApproveSignIn s sock rid = _
    rcases hreq : mapGet s.signInRequests rid with _ | req
    · simp [handleApproveSignIn, hreq]
    · simp [handleApproveSignIn, hreq, h]
  · intro req u hreq hu
    have hinv := reachable_inv s hs
    have hmem : (sock, u) ∈ s.activeConnections :=
      mapGet_mem _ _ _ (truthyGet_some _ _ _ hu).1
    obtain ⟨user, huser⟩ := hinv.acUser (sock, u) hmem
    refine ⟨user, huser, ?_, ?_⟩
    · show handleApproveSignIn s sock rid = _
      simp [handleApproveSignIn, hreq, hu, huser]
    · intro hrs sock2 f text ts hf2
      have hinv' : Inv (step s (.approveSignIn sock rid)).1 :=
        inv_step s (.approveSignIn sock rid) hinv
      have husers' : (step s (.approveSignIn sock rid)).1.users =
          mapSet s.users u { user with socketId := some req.requestingSocketId } := by
        show (handleApproveSignIn s sock rid).1.users = _
        simp [handleApproveSignIn, hreq, hu, huser]
      have hfind : findUserByNumber (step s (.approveSignIn sock rid)).1.users u =
          some { user with socketId := some req.requestingSocketId } := by
        rw [findUserByNumber_eq_mapGet _ (fun p hp => (hinv'.userNum p hp).1) u, husers']
        exact mapGet_mapSet_self _ _ _
      have houts : (step (step s (.approveSignIn sock rid)).1 (.sendMessage sock2 u text ts)).2 =
          [(sock2, .messageSent ⟨f, u, text, ts⟩)] ++
          [(req.requestingSocketId, .messageReceived ⟨f, u, text, ts⟩)] ++
          (if user.email ≠ "" ∧ user.email.trim ≠ "" then
            [(user.email, .emailNotify user.email text (encodeToNumbers text))]
          else []) := by
        show (handleSendMessage _ sock2 u text ts).2 = _
        have htr : optTruthy (some req.requestingSocketId) = true := by
          simp [optTruthy, hrs]
        simp [handleSendMessage, hf2, hfind, htr]
      rw [houts]
      constructor
      · simp
      · intro hne2 hner m
        intro hmem'
        simp only [List.mem_append, List.mem_singleton] at hmem'
        rcases hmem' with (hmem' | hmem') | hmem'
        · have : sock = sock2 := congrArg Prod.fst hmem'
          exact hne2 this
        · have : sock = req.requestingSocketId := congrArg Prod.fst hmem'
          exact hner this
        · by_cases he : user.email ≠ "" ∧ user.email.trim ≠ ""
          · rw [if_pos he] at hmem'
            simp at hmem'
          · rw [if_neg he] at hmem'
            simp at hmem'

/-- C2 counterexample: socket A registers 1111 and then registers the
fresh number 2222; in the resulting reachable state connection A is
simultaneously recorded as the live session of both users. -/
theorem connection_live_for_two_users :
    Reachable wDouble ∧
    (mapGet wDouble.users "1111").map User.socketId = some (some "A") ∧
    (mapGet wDouble.users "2222").map User.socketId = some (some "A") ∧
    ("1111" : String) ≠ "2222" :=
  ⟨Reachable.next wS1 (.register "A" (wPayload "2222") "r0")
      (Reachable.next initState wE1 Reachable.init),
    rfl, rfl, by decide⟩

theorem noShared_users_eq (s s' : ServerState) (h : s'.users = s.users)
    (hn : NoSharedLiveSocket s) : NoSharedLiveSocket s' := by
  unfold NoSharedLiveSocket at hn ⊢
  rw [h]
  exact hn

theorem noShared_mapSet (s s' : ServerState) (uid : String) (user newU : User)
    (husers : s'.users = mapSet s.users uid newU)
    (hget : mapGet s.users uid = some user)
    (hsock : ∀ c, newU.socketId = some c → user.socketId = some c)
    (hn : NoSharedLiveSocket s) : NoSharedLiveSocket s' := by
  unfold NoSharedLiveSocket
  rw [husers]
  intro p hp q hq hne
  have humem : (uid, user) ∈ s.users := mapGet_mem _ _ _ hget
  rcases mem_mapSet _ _ _ p hp with hp' | hp'
  · rcases mem_mapSet _ _ _ q hq with hq' | hq'
    · rw [hp', hq'] at hne
      exact absurd rfl hne
    · rcases hcase : newU.socketId with _ | c
      · left
        rw [hp']
        exact hcase
      · right
        rw [hp']
        show newU.socketId ≠ q.2.socketId
        rw [hcase]
        have huc : user.socketId = some c := hsock c hcase
        have hne' : (uid : String) ≠ q.1 := by
          rw [hp'] at hne
          exact hne
        have hdis : user.socketId = none ∨ user.socketId ≠ q.2.socketId :=
          hn (uid, user) humem q hq' hne'
        rcases hdis with h' | h'
        · rw [huc] at h'
          cases h'
        · rw [← huc]
          exact h'
  · rcases mem_mapSet _ _ _ q hq with hq' | hq'
    · rcases hcase : p.2.socketId with _ | c
      · left
        rfl
      · right
        rw [hq']
        show some c ≠ newU.socketId
        intro hx
        have hx' : newU.socketId = some c := hx.symm
        have huc : user.socketId = some c := hsock c hx'
        have hne' : p.1 ≠ (uid : String) := by
          rw [hq'] at hne
          exact hne
        have hdis : p.2.socketId = none ∨ p.2.socketId ≠ user.socketId :=
          hn p hp' (uid, user) humem hne'
        rcases hdis with h' | h'
        · rw [hcase] at h'
          cases h'
        · rw [hcase, huc] at h'
          exact h' rfl
    · exact hn p hp' q hq' hne

theorem sendMessage_users_eq (s : ServerState) (sock tn text : String) (ts : Nat) :
    (handleSendMessage s sock tn text ts).1.users = s.users := by
  unfold handleSendMessage
  split
  · rfl
  · split <;> rfl

theorem deny_users_eq (s : ServerState) (sock rid : String) :
    (handleDenySignIn s sock rid).1.users = s.users := by
  unfold handleDenySignIn
  split <;> rfl

/-- C2 (amended): in every reachable state each connection is bound to at
most one identity in the session registry (its keys are duplicate-free),
and every event other than `register` and `approveSignIn` preserves the
property that no connection is the recorded live session of two distinct
users; `register` and `approveSignIn` do not preserve it (see the
counterexample). -/
theorem session_binding_invariants :
    (∀ s, Reachable s → (s.activeConnections.map Prod.fst).Nodup) ∧
    (∀ (s : ServerState) (e : Event), bindingMutator e = false →
      NoSharedLiveSocket s → NoSharedLiveSocket (step s e).1) := by
  constructor
  · intro s hs
    exact (reachable_inv s hs).acUniq
  · intro s e he hn
    cases e with
    | register sock p rid => simp [bindingMutator] at he
    | approveSignIn sock rid => simp [bindingMutator] at he
    | denySignIn sock rid =>
      exact noShared_users_eq _ _ (deny_users_eq s sock rid) hn
    | updateProfile sock p =>
      rcases hu : truthyGet s.activeConnections sock with _ | userId
      · refine noShared_users_eq _ _ ?_ hn
        show (handleUpdateProfile s sock p).1.users = s.users
        simp [handleUpdateProfile, hu]
      · rcases huser : mapGet s.users userId with _ | user
        · refine noShared_users_eq _ _ ?_ hn
          show (handleUpdateProfile s sock p).1.users = s.users
          simp [handleUpdateProfile, hu, huser]
        · refine noShared_mapSet s _ userId user (applyPatch user p) ?_ huser ?_ hn
          · show (handleUpdateProfile s sock p).1.users = _
            simp [handleUpdateProfile, hu, huser]
          · intro c hc
            exact hc
    | getUserByNumber sock n =>
      exact noShared_users_eq _ _ (congrArg ServerState.users (getUserByNumber_state s sock n)) hn
    | sendMessage sock tn text ts =>
      exact noShared_users_eq _ _ (sendMessage_users_eq s sock tn text ts) hn
    | getChatHistory sock t =>
      exact noShared_users_eq _ _ (congrArg ServerState.users (getChatHistory_state s sock t)) hn
    | initiateCall sock t o =>
      exact noShared_users_eq _ _ (congrArg ServerState.users (initiateCall_state s sock t o)) hn
    | answerCall sock t a =>
      exact noShared_users_eq _ _ (congrArg ServerState.users (answerCall_state s sock t a)) hn
    | iceCandidate sock t c =>
      exact noShared_users_eq _ _ (congrArg ServerState.users (iceCandidate_state s sock t c)) hn
    | endCall sock t =>
      exact noShared_users_eq _ _ (congrArg ServerState.users (endCall_state s sock t)) hn
    | disconnect sock =>
      rcases hu : truthyGet s.activeConnections sock with _ | userId
      · refine noShared_users_eq _ _ ?_ hn
        show (handleDisconnect s sock).1.users = s.users
        simp [handleDisconnect, hu]
      · rcases huser : mapGet s.users userId with _ | user
        · refine noShared_users_eq _ _ ?_ hn
          show (handleDisconnect s sock).1.users = s.users
          simp [handleDisconnect, hu, huser]
        · refine noShared_mapSet s _ userId user { user with socketId := none } ?_ huser ?_ hn
          · show (handleDisconnect s sock).1.users = _
            simp [handleDisconnect, hu, huser]
          · intro c hc
            cases hc

/-! ## Closed witnesses -/

/-- C3 witness: user 1111 is signed out in `wS2d`; a register from the new
connection D re-binds directly, keeps the stored profile, and creates no
SignInRequest. -/
theorem register_resignin_witness :
    step wS2d (.register "D" (wPayload "1111") "r9") =
      ({ wS2d with
          users := mapSet wS2d.users "1111"
            ⟨"1111", "Alice", "", "", 0, "", "", "", some "D"⟩,
          activeConnections := mapSet wS2d.activeConnections "D" "1111" },
       [("D", .registered "1111" ⟨"1111", "Alice", "", "", 0, "", "", "", some "D"⟩)]) :=
  register_resignin wS2d "D" (wPayload "1111") "r9"
    ⟨"1111", "Alice", "", "", 0, "", "", "", none⟩ (by decide) rfl rfl

/-- C5 witness: registering 1111 from C while A holds the live session. -/
theorem register_conflict_witness :
    step wS2 (.register "C" (wPayload "1111") "r1") =
      ({ wS2 with signInRequests := mapSet wS2.signInRequests "r1" ⟨"1111", "C"⟩ },
       [("A", .signInRequest "r1"), ("C", .awaitingAuthorization)]) ∧
    (mapSet wS2.signInRequests "r1" ⟨"1111", "C"⟩).length = wS2.signInRequests.length + 1 :=
  register_conflict wS2 "C" (wPayload "1111") "r1"
    ⟨"1111", "Alice", "", "", 0, "", "", "", some "A"⟩ "A" (by decide) rfl rfl (by decide) rfl

/-- C6 witness: a register with the malformed number `12a4` errors and
leaves the empty initial state unchanged. -/
theorem register_invalid_number_witness :
    step initState (.register "A" (wPayload "12a4") "r0") =
      (initState, [("A", .error "Number must be exactly 4 digits")]) :=
  register_invalid_number initState "A" (wPayload "12a4") "r0" (by decide)

/-- C7 witness: both error branches at concrete states. -/
theorem sendMessage_error_paths_witness :
    step wS2 (.sendMessage "Z" "2222" "hi" 7) = (wS2, [("Z", .error "Not registered")]) ∧
    step wS2 (.sendMessage "A" "9999" "hi" 7) = (wS2, [("A", .error "Recipient not found")]) :=
  ⟨(sendMessage_error_paths wS2 "Z" "2222" "hi" 7).1 rfl,
   (sendMessage_error_paths wS2 "A" "9999" "hi" 7).2 "1111" rfl rfl⟩

/-- C8 witness: online delivery to B's session, retrievability via
history, and no `messageReceived` when the recipient (1111, signed out in
`wS2d`) is offline. -/
theorem sendMessage_success_witness :
    ("B", SEvent.messageReceived ⟨"1111", "2222", "hi", 5⟩) ∈
      (step wS2 (.sendMessage "A" "2222" "hi" 5)).2 ∧
    (step (step wS2 (.sendMessage "A" "2222" "hi" 5)).1 (.getChatHistory "A" "2222")).2 =
      [("A", .chatHistory "2222"
        (((mapGet wS2.messages (chatKey "1111" "2222")).getD []) ++
          [⟨"1111", "2222", "hi", 5⟩]))] ∧
    ("A", SEvent.messageReceived ⟨"2222", "1111", "yo", 6⟩) ∉
      (step wS2d (.sendMessage "B" "1111" "yo" 6)).2 :=
  have h1 := sendMessage_success wS2 "A" "2222" "hi" 5 "1111"
    ⟨"2222", "Alice", "", "", 0, "", "", "", some "B"⟩ rfl rfl
  have h2 := sendMessage_success wS2d "B" "1111" "yo" 6 "2222"
    ⟨"1111", "Alice", "", "", 0, "", "", "", none⟩ rfl rfl
  ⟨h1.2.2.2.2.2.1 "B" rfl (by decide), h1.2.2.2.2.2.2.2,
   h2.2.2.2.2.2.2.1 rfl "A" ⟨"2222", "1111", "yo", 6⟩⟩

/-- C9 witness: symmetry at concrete identifiers and both history
directions after the first message. -/
theorem chatKey_symmetric_histories_witness :
    chatKey "1111" "2222" = chatKey "2222" "1111" ∧
    (step (step wS2 (.sendMessage "A" "2222" "hi" 5)).1 (.getChatHistory "A" "2222")).2 =
      [("A", .chatHistory "2222" [⟨"1111", "2222", "hi", 5⟩])] ∧
    (step (step wS2 (.sendMessage "A" "2222" "hi" 5)).1 (.getChatHistory "B" "1111")).2 =
      [("B", .chatHistory "1111" [⟨"1111", "2222", "hi", 5⟩])] :=
  have h2 := chatKey_symmetric_histories.2 wS2 "A" "B" "1111" "2222" "hi" 5
    ⟨"2222", "Alice", "", "", 0, "", "", "", some "B"⟩ rfl rfl rfl rfl
  ⟨chatKey_symmetric_histories.1 "1111" "2222", h2.1, h2.2⟩

/-- C10 witness: the single message retrievable by A in `wS3` has A's
identifier as sender. -/
theorem getChatHistory_own_conversation_witness :
    (⟨"1111", "2222", "hi", 5⟩ : Message).fromUserId = "1111" ∨
    (⟨"1111", "2222", "hi", 5⟩ : Message).toUserId = "1111" :=
  getChatHistory_own_conversation wS3 "A" "2222" "1111" wS3_reachable rfl "2222"
    [⟨"1111", "2222", "hi", 5⟩] rfl ⟨"1111", "2222", "hi", 5⟩ (by simp)

/-- C1 witness: both no-op guards, and after A (1111's live session)
approves r1, a message to 1111 reaches the new session C and not A. -/
theorem approveSignIn_behavior_witness :
    step wS2c (.approveSignIn "A" "zz") = (wS2c, []) ∧
    step wS2c (.approveSignIn "Z" "r1") = (wS2c, []) ∧
    ("C", SEvent.messageReceived ⟨"2222", "1111", "yo", 9⟩) ∈
      (step (step wS2c (.approveSignIn "A" "r1")).1 (.sendMessage "B" "1111" "yo" 9)).2 ∧
    ("A", SEvent.messageReceived ⟨"2222", "1111", "yo", 9⟩) ∉
      (step (step wS2c (.approveSignIn "A" "r1")).1 (.sendMessage "B" "1111" "yo" 9)).2 := by
  obtain ⟨user, hu, hstep, hdel⟩ :=
    (approveSignIn_behavior wS2c wS2c_reachable "A" "r1").2.2 ⟨"1111", "C"⟩ "1111" rfl rfl
  have hd := hdel (by decide) "B" "2222" "yo" 9 rfl
  exact ⟨(approveSignIn_behavior wS2c wS2c_reachable "A" "zz").1 rfl,
    (approveSignIn_behavior wS2c wS2c_reachable "Z" "r1").2.1 rfl,
    hd.1, hd.2 (by decide) (by decide) ⟨"2222", "1111", "yo", 9⟩⟩

/-- C2 witness: duplicate-free session registry in `wS2`, and the
no-shared-live-socket property preserved by a concrete disconnect. -/
theorem session_binding_invariants_witness :
    (wS2.activeConnections.map Prod.fst).Nodup ∧
    NoSharedLiveSocket (step wS2 (.disconnect "A")).1 :=
  ⟨session_binding_invariants.1 wS2 wS2_reachable,
   session_binding_invariants.2 wS2 (.disconnect "A") rfl (by decide)⟩

end MessageCaller

